import Mathlib

/-!
Shallow embedding of `lab_5_scrapper/scrapper.py` (news-site crawler and
article extractor) and verification of its specification claims.

Python strings are modelled as Lean `String` (both are sequences of unicode
code points; Python slicing `s[n:]` becomes dropping `n` characters,
`str.replace` of a single character becomes a character map, `'\n'.join`
becomes an explicit join function).  BeautifulSoup queries are modelled by a
`Page` structure holding exactly the results of the queries the code makes
(`find('h1').string`, `find('time').get('datetime')`, paragraph texts after
`footer`/`lead` decomposition, topic texts).  Python exceptions become
`Except`/`Option` results.
-/

namespace Scrapper

/-! ## Listing extractor (`Crawler._extract_url`) -/

/-- Embeds `self.url_pattern = 'https://vse42.ru/articles'` set in
`Crawler.__init__`. -/
def urlPattern : String := "https://vse42.ru/articles"

/-- Embeds the href rewrite in `Crawler._extract_url`:
`url = self.url_pattern + url[len('/articles')::]`, where
`len('/articles') = 9`.  The Python slice `url[9:]` drops the first nine
code points unconditionally. -/
def rewriteUrl (href : String) : String :=
  urlPattern ++ String.mk (href.data.drop 9)

/-- Embeds the loop of `Crawler._extract_url`: scan the hrefs of the
`card-big` anchors in document order, rewrite each, and return the first
rewritten URL not already in `self.urls`; return `''` when none is left.
`hrefs` is the list of `link.get('href')` values in document order,
`collected` is `self.urls`. -/
def extractUrl (hrefs : List String) (collected : List String) : String :=
  match hrefs with
  | [] => ""
  | href :: rest =>
    let url := rewriteUrl href
    if collected.contains url then extractUrl rest collected else url

/-- Specification-side restatement of the listing extractor, written from the
spec's words (section 4.2): scan the card anchors in document order, rewrite
each href by the fixed base-path substitution, and return the first resulting
URL not present in `already_collected`, or the none signal.  Used only to
compare against `extractUrl`, which is embedded from the source. -/
def nextLinkSpec (hrefs : List String) (alreadyCollected : List String) :
    Option String :=
  (hrefs.map rewriteUrl).find? (fun u => !(alreadyCollected.contains u))

/-! ## Text assembly (`HTMLParser._fill_article_with_text`) -/

/-- Embeds `full_text.replace('\xa0', ' ')`: every non-breaking space
character is replaced by an ordinary space (a one-character-to-one-character
`str.replace` is a character map). -/
def replaceNbsp (s : String) : String :=
  String.mk (s.data.map (fun c => if c = Char.ofNat 0xA0 then ' ' else c))

/-- Embeds `'\n'.join(raw_text)`. -/
def pyJoin (sep : String) : List String → String
  | [] => ""
  | [s] => s
  | s :: rest => s ++ sep ++ pyJoin sep rest

/-- Embeds `HTMLParser._fill_article_with_text` as a function of the texts of
the paragraph elements remaining after the `footer` and `lead` decomposition
(`paragraphs` lists `text_block.text` for the elements found by
`find_all('p')`, in document order):
`text_blocks = article_soup.find_all('p')[:-5]` (the Python slice `[:-5]`
keeps the first `len - 5` items and is empty when `len ≤ 5`),
`raw_text = [t for t in text_blocks if t]` (Python string truthiness keeps
the non-empty texts), `full_text = '\n'.join(raw_text)`, and finally the
non-breaking-space replacement. -/
def fillText (paragraphs : List String) : String :=
  let text_blocks := paragraphs.take (paragraphs.length - 5)
  let raw_text := text_blocks.filter (fun t => t ≠ "")
  let full_text := pyJoin "\n" raw_text
  replaceNbsp full_text

/-! ## Date parsing (`HTMLParser.unify_date_format`) -/

/-- Result of a successful `datetime.datetime.strptime` call with format
`'%Y-%m-%dT%H:%M:%S%z'`: a fully populated timestamp with a fixed UTC
offset in minutes. -/
structure PyDatetime where
  year : Nat
  month : Nat
  day : Nat
  hour : Nat
  minute : Nat
  second : Nat
  tzOffsetMinutes : Int
deriving DecidableEq, Repr

/-- Reads exactly `n` decimal digits from the front of `cs`, returning their
value and the rest of the input. -/
def readDigits : Nat → List Char → Option (Nat × List Char)
  | 0, cs => some (0, cs)
  | _ + 1, [] => none
  | n + 1, c :: cs =>
    if c.isDigit then
      match readDigits n cs with
      | some (v, rest) => some ((c.toNat - '0'.toNat) * 10 ^ n + v, rest)
      | none => none
    else none

/-- Reads one expected literal character. -/
def readLit (c : Char) : List Char → Option (List Char)
  | [] => none
  | d :: cs => if d = c then some cs else none

/-- Reads the `%z` directive: either `Z` (offset zero) or a sign followed by
two hour digits, an optional colon, and two minute digits with the minute
tens digit at most five; the resulting offset must be less than a day.
(The optional seconds/fraction part of `%z` is not exercised by this
program's inputs.) -/
def readTz : List Char → Option (Int × List Char)
  | [] => none
  | c :: cs =>
    if c = 'Z' then some (0, cs)
    else if c = '+' ∨ c = '-' then
      match readDigits 2 cs with
      | none => none
      | some (hh, cs1) =>
        let cs2 := match cs1 with
                   | ':' :: t => t
                   | t => t
        match readDigits 2 cs2 with
        | none => none
        | some (mm, cs3) =>
          if mm ≤ 59 ∧ hh * 60 + mm < 24 * 60 then
            let off : Int := (hh * 60 + mm : Nat)
            some (if c = '-' then -off else off, cs3)
          else none
    else none

/-- Number of days `datetime.date` accepts for month `mo` of year `y`. -/
def monthLength (y mo : Nat) : Nat :=
  if mo = 2 then
    if y % 4 = 0 ∧ (y % 100 ≠ 0 ∨ y % 400 = 0) then 29 else 28
  else if mo = 4 ∨ mo = 6 ∨ mo = 9 ∨ mo = 11 then 30
  else 31

/-- Embeds `datetime.datetime.strptime(date_str, '%Y-%m-%dT%H:%M:%S%z')`
(`HTMLParser.unify_date_format`): the whole input must match, in order,
a four-digit year, `-`, a month, `-`, a day, the literal `T`, an hour, `:`,
a minute, `:`, a second, and a UTC offset, with the calendar fields in the
ranges `strptime` accepts (month 1-12, day 1-31 and valid for the month,
hour 0-23, minute 0-59, second 0-61).  `none` models the `ValueError`
raised on any mismatch.  (Fields are taken at their canonical two-digit
widths; the claims' inputs are all canonical.) -/
def strptimeDTZ (dateStr : String) : Option PyDatetime :=
  match readDigits 4 dateStr.data with
  | none => none
  | some (y, cs) =>
  match readLit '-' cs with
  | none => none
  | some cs =>
  match readDigits 2 cs with
  | none => none
  | some (mo, cs) =>
  match readLit '-' cs with
  | none => none
  | some cs =>
  match readDigits 2 cs with
  | none => none
  | some (d, cs) =>
  match readLit 'T' cs with
  | none => none
  | some cs =>
  match readDigits 2 cs with
  | none => none
  | some (h, cs) =>
  match readLit ':' cs with
  | none => none
  | some cs =>
  match readDigits 2 cs with
  | none => none
  | some (mi, cs) =>
  match readLit ':' cs with
  | none => none
  | some cs =>
  match readDigits 2 cs with
  | none => none
  | some (s, cs) =>
  match readTz cs with
  | none => none
  | some (off, cs) =>
  if cs = [] ∧ 1 ≤ mo ∧ mo ≤ 12 ∧ 1 ≤ d ∧ d ≤ 31 ∧ h ≤ 23 ∧ mi ≤ 59 ∧
     s ≤ 61 ∧ d ≤ monthLength y mo then
    some ⟨y, mo, d, h, mi, s, off⟩
  else none

/-- Embeds `HTMLParser.unify_date_format` itself (a direct call to the
strict `strptime`; `none` is the propagated `ValueError`). -/
def unify_date_format (dateStr : String) : Option PyDatetime :=
  strptimeDTZ dateStr

/-! ## Config validation of the article count
(`Config._validate_config_content`, lines 102-107) -/

/-- Python values as far as this validation inspects them. -/
inductive PyVal where
  | int (n : Int)
  | bool (b : Bool)
  | str (s : String)
  | listV (l : List PyVal)
  | noneV
deriving Repr

/-- Exception kinds raised by `Config._validate_config_content` for the
article-count field. -/
inductive ConfigError where
  | incorrectNumberOfArticles
  | numberOfArticlesOutOfRange
deriving DecidableEq, Repr

/-- Embeds Python `isinstance(v, int)` (booleans are `int` instances in
Python). -/
def isInstInt : PyVal → Bool
  | .int _ => true
  | .bool _ => true
  | _ => false

/-- Numeric value of a Python `int` instance. -/
def pyIntVal : PyVal → Int
  | .int n => n
  | .bool b => if b then 1 else 0
  | _ => 0

/-- Embeds the two article-count checks of `Config._validate_config_content`
in source order:
`if not isinstance(v, int) or v <= 0: raise IncorrectNumberOfArticlesError`
then `if not 0 < v <= 150: raise NumberOfArticlesOutOfRangeError`.
Returns the first exception raised, or `none` when the value passes. -/
def validateTotalArticles (v : PyVal) : Option ConfigError :=
  if ¬ isInstInt v ∨ pyIntVal v ≤ 0 then
    some ConfigError.incorrectNumberOfArticles
  else if ¬ (0 < pyIntVal v ∧ pyIntVal v ≤ 150) then
    some ConfigError.numberOfArticlesOutOfRange
  else none

/-! ## Crawl state machine (`Crawler.find_articles`) -/

/-- Auxiliary: a filter over a pointwise-weaker predicate is no longer. -/
theorem length_filter_le_of_imp {α : Type} (l : List α) (p q : α → Bool)
    (h : ∀ a ∈ l, q a = true → p a = true) :
    (l.filter q).length ≤ (l.filter p).length := by
  induction l with
  | nil => simp
  | cons a t ih =>
    have ht : ∀ a ∈ t, q a = true → p a = true := fun x hx => h x (by simp [hx])
    by_cases hq : q a = true
    · have hp : p a = true := h a (by simp) hq
      simp [List.filter, hq, hp]
      exact ih ht
    · simp only [List.filter, Bool.not_eq_true] at hq ⊢
      rw [hq]
      by_cases hp : p a = true
      · rw [hp]
        simpa using Nat.le_succ_of_le (ih ht)
      · rw [Bool.not_eq_true] at hp
        rw [hp]
        exact ih ht

/-- Auxiliary: a filter loses length strictly when some member passing the
stronger predicate fails the weaker one. -/
theorem length_filter_lt_of_mem {α : Type} (l : List α) (p q : α → Bool)
    (h : ∀ a ∈ l, q a = true → p a = true)
    (u : α) (hu : u ∈ l) (hpu : p u = true) (hqu : q u = false) :
    (l.filter q).length < (l.filter p).length := by
  induction l with
  | nil => cases hu
  | cons a t ih =>
    have ht : ∀ a ∈ t, q a = true → p a = true := fun x hx => h x (by simp [hx])
    rcases List.mem_cons.mp hu with rfl | hut
    · simp only [List.filter, hqu, hpu]
      exact Nat.lt_succ_of_le (length_filter_le_of_imp t p q ht)
    · by_cases hq : q a = true
      · have hp : p a = true := h a (by simp) hq
        simpa [List.filter, hq, hp] using ih ht hut
      · rw [Bool.not_eq_true] at hq
        rw [List.filter, hq]
        by_cases hp : p a = true
        · rw [List.filter, hp]
          exact Nat.lt_succ_of_lt (ih ht hut)
        · rw [Bool.not_eq_true] at hp
          rw [List.filter, hp]
          exact ih ht hut

/-- A non-empty extraction result is the rewrite of some scanned href and is
not yet collected. -/
theorem extractUrl_spec (hrefs collected : List String)
    (h : extractUrl hrefs collected ≠ "") :
    extractUrl hrefs collected ∈ hrefs.map rewriteUrl ∧
      collected.contains (extractUrl hrefs collected) = false := by
  induction hrefs with
  | nil => simp [extractUrl] at h
  | cons href rest ih =>
    by_cases hc : collected.contains (rewriteUrl href) = true
    · rw [extractUrl] at h ⊢
      simp only [hc, if_pos] at h ⊢
      rcases ih h with ⟨h1, h2⟩
      exact ⟨by simp [h1], h2⟩
    · rw [Bool.not_eq_true] at hc
      rw [extractUrl] at h ⊢
      simp only [hc] at h ⊢
      exact ⟨by simp, hc⟩

/-- Embeds the `while extracted_url:` loop of `Crawler.find_articles`, run
against one parsed seed page whose card hrefs are `hrefs`, with accumulated
`self.urls = urls` and `num = self.config.get_num_articles()`: extract the
next fresh URL from the same parsed page; stop when it is `''`; otherwise
break when the accumulated count already equals `num`, else append it and
repeat.  Termination: each appended URL is a rewrite of a scanned href that
was not yet collected, so the number of scanned hrefs whose rewrite is still
uncollected strictly decreases. -/
def innerLoop (num : Nat) (hrefs : List String) (urls : List String) :
    List String :=
  if hu : extractUrl hrefs urls = "" then urls
  else if urls.length = num then urls
  else innerLoop num hrefs (urls ++ [extractUrl hrefs urls])
termination_by
  ((hrefs.map rewriteUrl).filter (fun v => !(urls.contains v))).length
decreasing_by
  rcases extractUrl_spec hrefs urls hu with ⟨hmem, hfresh⟩
  refine length_filter_lt_of_mem (hrefs.map rewriteUrl)
    (fun v => !(urls.contains v))
    (fun v => !((urls ++ [extractUrl hrefs urls]).contains v))
    ?_ (extractUrl hrefs urls) hmem (by simpa using hfresh) (by simp)
  intro a _ hq
  simp at hq ⊢
  exact hq.1

/-- Embeds the outer `for seed_url in seed_urls:` loop of
`Crawler.find_articles`.  Each element of `seeds` stands for one seed URL's
fetch outcome: `none` when `response.ok` is false (the loop `continue`s),
`some hrefs` for a parsed listing page whose card anchors carry `hrefs`.
After a productive seed the loop breaks as soon as the accumulated count
equals `num`. -/
def findArticles (num : Nat) :
    List (Option (List String)) → List String → List String
  | [], urls => urls
  | none :: rest, urls => findArticles num rest urls
  | some hrefs :: rest, urls =>
    let urls2 := innerLoop num hrefs urls
    if urls2.length = num then urls2 else findArticles num rest urls2

/-- Embeds `enumerate(crawler.urls, 1)` in `main`: the order in which the
collected URLs are parsed, paired with the 1-based article identifiers they
are assigned. -/
def parseOrder (urls : List String) : List (Nat × String) :=
  (List.range' 1 urls.length).zip urls

/-! ## Article extraction (`HTMLParser`) and the `main` pipeline -/

/-- One article page, abstracted by the BeautifulSoup queries
`HTMLParser` makes against it.
`h1 = none` models `find('h1')` returning `None` (so `.string` raises
`AttributeError`); `h1 = some s` models an `h1` element whose `.string` is
`s` (with `s = none` for a `None` string).  `timeElem` likewise models
`find('time')` and, when the element exists, its `get('datetime')` value.
`paragraphs` lists the texts of the `find_all('p')` elements remaining
after the `footer`/`lead` decomposition, in document order; `topics` lists
the texts of the rubric-link elements. -/
structure Page where
  h1 : Option (Option String)
  timeElem : Option (Option String)
  paragraphs : List String
  topics : List String
deriving DecidableEq, Repr

/-- Embeds Python `str(x)` for `x` an optional string (`str(None)` is the
four-character string `"None"`). -/
def pyStr : Option String → String
  | none => "None"
  | some s => s

/-- Python exceptions that can escape `HTMLParser.parse`. -/
inductive PyError where
  | attributeError
  | valueError
deriving DecidableEq, Repr

/-- One `Article` object as far as the scrapper populates it.  A field is
`none` while never assigned by the parser (the record `Article(url, id)`
starts with only the URL and the identifier). -/
structure ArticleRecord where
  url : String
  article_id : Nat
  text : Option String
  title : Option String
  date : Option PyDatetime
  topics : Option (List String)
  author : Option (List String)
deriving DecidableEq, Repr

/-- Embeds `Article(self.full_url, self.article_id)` as built in
`HTMLParser.__init__`: no content field populated yet. -/
def bareArticle (url : String) (id : Nat) : ArticleRecord :=
  ⟨url, id, none, none, none, none, none⟩

/-- Embeds `_fill_article_with_text` followed by
`_fill_article_with_meta_information`, in the order `HTMLParser.parse` calls
them.  Meta filling assigns the author placeholder, then reads
`find('h1').string` (raising `AttributeError` when there is no `h1`), then
parses the `time` element's datetime — or the literal `'2024-01-01'`
fallback — with the strict format (a failed parse raises `ValueError`),
then collects the stripped topic texts. -/
def fillArticle (page : Page) (art : ArticleRecord) :
    Except PyError ArticleRecord :=
  let art1 := { art with text := some (fillText page.paragraphs) }
  let art2 := { art1 with author := some ["NOT FOUND"] }
  match page.h1 with
  | none => Except.error PyError.attributeError
  | some h1str =>
    let art3 := { art2 with title := some (pyStr h1str).trim }
    match (match page.timeElem with
           | some d => unify_date_format (pyStr d)
           | none => unify_date_format "2024-01-01") with
    | none => Except.error PyError.valueError
    | some dt =>
      Except.ok { art3 with date := some dt,
                            topics := some (page.topics.map String.trim) }

/-- Embeds `HTMLParser.parse`: fetch the article page (`response = none`
models `response.ok` false); on a successful fetch run both fill steps,
otherwise return the article object untouched.  `Except.error` models an
exception escaping `parse`. -/
def parse (url : String) (id : Nat) (response : Option Page) :
    Except PyError ArticleRecord :=
  match response with
  | none => Except.ok (bareArticle url id)
  | some page => fillArticle page (bareArticle url id)

/-- Embeds the loop of `main`: for each collected URL, in order and with
1-based identifiers starting at `i`, build a parser and call `parse`; since
`parse` always returns the article object when it returns at all, the
`isinstance(article, Article)` guard is satisfied and `to_raw`/`to_meta`
persist the record.  The first component lists the persisted records with
their identifiers; the second is the uncaught exception that aborted the
loop, if any (nothing after it is processed or persisted). -/
def runPipeline :
    Nat → List (String × Option Page) →
      List (Nat × ArticleRecord) × Option PyError
  | _, [] => ([], none)
  | i, (url, resp) :: rest =>
    match parse url i resp with
    | Except.error e => ([], some e)
    | Except.ok art =>
      let tail := runPipeline (i + 1) rest
      ((i, art) :: tail.1, tail.2)

/-! ## Invariant lemmas for the crawl state machine -/

/-- The while-loop only appends fresh URLs, so it preserves freedom from
duplicates. -/
theorem innerLoop_nodup (num : Nat) (hrefs urls : List String)
    (h : urls.Nodup) : (innerLoop num hrefs urls).Nodup := by
  revert h
  induction urls using innerLoop.induct num hrefs with
  | case1 x hx =>
    intro h
    rw [innerLoop, dif_pos hx]
    exact h
  | case2 x hx hlen =>
    intro h
    rw [innerLoop, dif_neg hx, if_pos hlen]
    exact h
  | case3 x hx hlen ih =>
    intro h
    rw [innerLoop, dif_neg hx, if_neg hlen]
    have hfresh : extractUrl hrefs x ∉ x := by
      simpa using (extractUrl_spec hrefs x hx).2
    refine ih (List.nodup_append.mpr ⟨h, List.nodup_singleton _, ?_⟩)
    intro a ha hmem
    rw [List.mem_singleton] at hmem
    subst hmem
    exact hfresh ha

/-- The while-loop never grows the accumulated sequence past the target. -/
theorem innerLoop_length_le (num : Nat) (hrefs urls : List String)
    (h : urls.length ≤ num) : (innerLoop num hrefs urls).length ≤ num := by
  revert h
  induction urls using innerLoop.induct num hrefs with
  | case1 x hx =>
    intro h
    rw [innerLoop, dif_pos hx]
    exact h
  | case2 x hx hlen =>
    intro h
    rw [innerLoop, dif_neg hx, if_pos hlen]
    exact h
  | case3 x hx hlen ih =>
    intro h
    rw [innerLoop, dif_neg hx, if_neg hlen]
    refine ih ?_
    simpa using Nat.lt_of_le_of_ne h hlen

/-- Once the target is reached the while-loop appends nothing. -/
theorem innerLoop_stop (num : Nat) (hrefs urls : List String)
    (h : urls.length = num) : innerLoop num hrefs urls = urls := by
  rw [innerLoop]
  by_cases hx : extractUrl hrefs urls = ""
  · rw [dif_pos hx]
  · rw [dif_neg hx, if_pos h]

/-- The outer seed loop preserves freedom from duplicates. -/
theorem findArticles_nodup (num : Nat) (seeds : List (Option (List String))) :
    ∀ urls : List String, urls.Nodup → (findArticles num seeds urls).Nodup := by
  induction seeds with
  | nil => exact fun urls h => h
  | cons seed rest ih =>
    intro urls h
    match seed with
    | none => exact ih urls h
    | some hrefs =>
      rw [findArticles]
      by_cases hlen : (innerLoop num hrefs urls).length = num
      · rw [if_pos hlen]
        exact innerLoop_nodup num hrefs urls h
      · rw [if_neg hlen]
        exact ih _ (innerLoop_nodup num hrefs urls h)

/-- The outer seed loop never grows the accumulated sequence past the
target. -/
theorem findArticles_length_le (num : Nat)
    (seeds : List (Option (List String))) :
    ∀ urls : List String, urls.length ≤ num →
      (findArticles num seeds urls).length ≤ num := by
  induction seeds with
  | nil => exact fun urls h => h
  | cons seed rest ih =>
    intro urls h
    match seed with
    | none => exact ih urls h
    | some hrefs =>
      rw [findArticles]
      by_cases hlen : (innerLoop num hrefs urls).length = num
      · rw [if_pos hlen]
        exact innerLoop_length_le num hrefs urls h
      · rw [if_neg hlen]
        exact ih _ (innerLoop_length_le num hrefs urls h)

/-- Once the target is reached the outer loop collects nothing more. -/
theorem findArticles_stop (num : Nat) (seeds : List (Option (List String)))
    (urls : List String) (h : urls.length = num) :
    findArticles num seeds urls = urls := by
  induction seeds with
  | nil => rfl
  | cons seed rest ih =>
    match seed with
    | none => exact ih
    | some hrefs =>
      rw [findArticles, innerLoop_stop num hrefs urls h, if_pos h]

/-- Appending further seeds after the target has been reached changes
nothing: the outer loop has already broken. -/
theorem findArticles_append (num : Nat)
    (s₁ s₂ : List (Option (List String))) :
    ∀ urls : List String, (findArticles num s₁ urls).length = num →
      findArticles num (s₁ ++ s₂) urls = findArticles num s₁ urls := by
  induction s₁ with
  | nil =>
    intro urls h
    exact findArticles_stop num s₂ urls h
  | cons seed rest ih =>
    intro urls h
    match seed with
    | none => exact ih urls h
    | some hrefs =>
      rw [findArticles] at h ⊢
      rw [List.cons_append, findArticles]
      by_cases hlen : (innerLoop num hrefs urls).length = num
      · rw [if_pos hlen] at h ⊢
        rw [if_pos hlen]
      · rw [if_neg hlen] at h ⊢
        rw [if_neg hlen]
        exact ih _ h

/-! ## Helper lemmas for text assembly -/

/-- Replacing non-breaking spaces is the identity on a string that has
none. -/
theorem replaceNbsp_eq_self {s : String}
    (h : ∀ c ∈ s.data, c ≠ Char.ofNat 0xA0) : replaceNbsp s = s := by
  refine String.ext ?_
  have hmap : s.data.map (fun c => if c = Char.ofNat 0xA0 then ' ' else c) =
      s.data.map id := List.map_congr_left (fun a ha => by simp [h a ha])
  simpa [replaceNbsp] using hmap

/-- Joining non-breaking-space-free strings with newlines yields a
non-breaking-space-free string. -/
theorem pyJoin_nbsp_free :
    ∀ l : List String, (∀ p ∈ l, ∀ c ∈ p.data, c ≠ Char.ofNat 0xA0) →
      ∀ c ∈ (pyJoin "\n" l).data, c ≠ Char.ofNat 0xA0 := by
  intro l
  induction l with
  | nil =>
    intro _ c hc
    simp [pyJoin] at hc
  | cons s rest ih =>
    intro h c hc
    cases rest with
    | nil =>
      simp only [pyJoin] at hc
      exact h s (by simp) c hc
    | cons t ts =>
      simp only [pyJoin, String.data_append] at hc
      rcases List.mem_append.mp hc with hc1 | hc2
      · rcases List.mem_append.mp hc1 with hs | hn
        · exact h s (by simp) c hs
        · intro hceq
          subst hceq
          simp at hn
      · exact ih (fun p hp => h p (by simp [hp])) c hc2

/-! ## Claim theorems -/

/-- C1: for a page whose parsed markup has no `time` element, the spec
claims the date field equals the fallback `2024-01-01` run through the same
strict parser, yielding a fully populated timestamp rather than failing.
In the code the fallback string does not match the strict format
`%Y-%m-%dT%H:%M:%S%z`, so the parse yields no timestamp at all
(`strptime` raises `ValueError`) and article extraction fails for such a
page; the second half of the claim — `datetime="2023-05-10T12:00:00+0300"`
parses to exactly that value — does hold. -/
theorem claim1_date_fallback (url : String) (id : Nat) (page : Page)
    (htime : page.timeElem = none) (hh1 : page.h1 ≠ none) :
    unify_date_format "2024-01-01" = none ∧
    unify_date_format "2023-05-10T12:00:00+0300" =
      some ⟨2023, 5, 10, 12, 0, 0, 180⟩ ∧
    parse url id (some page) = Except.error PyError.valueError := by
  refine ⟨by decide, by decide, ?_⟩
  rcases hp : page.h1 with _ | h1str
  · exact absurd hp hh1
  · have hfb : unify_date_format "2024-01-01" = none := by decide
    simp [parse, fillArticle, hp, htime, hfb]

/-- Witness for C1 at a concrete page with an `h1` and no `time`
element. -/
theorem claim1_witness :
    unify_date_format "2024-01-01" = none ∧
    unify_date_format "2023-05-10T12:00:00+0300" =
      some ⟨2023, 5, 10, 12, 0, 0, 180⟩ ∧
    parse "https://vse42.ru/articles/a" 1
      (some ⟨some (some "Heading"), none, [], []⟩) =
      Except.error PyError.valueError :=
  claim1_date_fallback "https://vse42.ru/articles/a" 1
    ⟨some (some "Heading"), none, [], []⟩ rfl (by decide)

/-- C2 counterexample: with three fetched pages of which the second lacks an
`h1`, the claim says articles 1 and 3 are persisted and only article 2 is
discarded; the code persists only article 1 and aborts the whole run with
the uncaught `AttributeError`, even though page 3 parses fine. -/
theorem claim2_counterexample :
    (runPipeline 1
        [("https://vse42.ru/articles/a",
            some ⟨some (some "T1"),
                  some (some "2023-05-10T12:00:00+0300"), [], []⟩),
         ("https://vse42.ru/articles/b",
            some ⟨none, some (some "2023-05-10T12:00:00+0300"), [], []⟩),
         ("https://vse42.ru/articles/c",
            some ⟨some (some "T3"),
                  some (some "2023-05-10T12:00:00+0300"), [], []⟩)]).1.map
        Prod.fst = [1] ∧
    (runPipeline 1
        [("https://vse42.ru/articles/a",
            some ⟨some (some "T1"),
                  some (some "2023-05-10T12:00:00+0300"), [], []⟩),
         ("https://vse42.ru/articles/b",
            some ⟨none, some (some "2023-05-10T12:00:00+0300"), [], []⟩),
         ("https://vse42.ru/articles/c",
            some ⟨some (some "T3"),
                  some (some "2023-05-10T12:00:00+0300"), [], []⟩)]).2 =
      some PyError.attributeError ∧
    (parse "https://vse42.ru/articles/c" 3
        (some ⟨some (some "T3"),
               some (some "2023-05-10T12:00:00+0300"), [], []⟩)).isOk =
      true := by
  decide

/-- C2 (amended): for a page lacking a top-level `h1`, extraction fails
with an attribute-lookup error, the failing article is discarded and not
persisted — but the error is not contained to that article: it propagates
out of the per-article loop, so none of the remaining collected URLs are
processed or persisted either. -/
theorem claim2_missing_h1_aborts (i : Nat) (url : String) (page : Page)
    (rest : List (String × Option Page)) (h : page.h1 = none) :
    parse url i (some page) = Except.error PyError.attributeError ∧
    runPipeline i ((url, some page) :: rest) =
      ([], some PyError.attributeError) := by
  have hp : parse url i (some page) = Except.error PyError.attributeError := by
    simp [parse, fillArticle, h]
  exact ⟨hp, by simp [runPipeline, hp]⟩

/-- Witness for the amended C2 at a concrete page without `h1`. -/
theorem claim2_witness :
    parse "https://vse42.ru/articles/x" 1 (some ⟨none, none, [], []⟩) =
      Except.error PyError.attributeError ∧
    runPipeline 1 [("https://vse42.ru/articles/x",
        some ⟨none, none, [], []⟩)] =
      ([], some PyError.attributeError) :=
  claim2_missing_h1_aborts 1 "https://vse42.ru/articles/x"
    ⟨none, none, [], []⟩ [] rfl

/-- C3: when the article-page fetch returns a not-ok response, `parse`
indeed populates no field beyond the identifier and source URL — but the
spec's claim that the record is then not persisted fails: `parse` returns
the bare article object, the `isinstance(article, Article)` guard in `main`
is satisfied, and `to_raw`/`to_meta` persist the empty record. -/
theorem claim3_failed_fetch_persisted (i : Nat) (url : String)
    (rest : List (String × Option Page)) :
    parse url i none = Except.ok (bareArticle url i) ∧
    (bareArticle url i).text = none ∧
    (bareArticle url i).title = none ∧
    (bareArticle url i).date = none ∧
    (bareArticle url i).topics = none ∧
    (bareArticle url i).author = none ∧
    runPipeline i ((url, none) :: rest) =
      ((i, bareArticle url i) :: (runPipeline (i + 1) rest).1,
        (runPipeline (i + 1) rest).2) := by
  refine ⟨rfl, rfl, rfl, rfl, rfl, rfl, ?_⟩
  simp [runPipeline, parse]

/-- C4: for every run of the collector from an empty accumulated sequence,
the collected URL sequence has no repeated element, and the order in which
`main` parses and numbers the articles (1-based enumeration) is exactly the
insertion order of the collected sequence. -/
theorem claim4_dedup_order (num : Nat) (seeds : List (Option (List String))) :
    (findArticles num seeds []).Nodup ∧
    (parseOrder (findArticles num seeds [])).map Prod.snd =
      findArticles num seeds [] ∧
    (parseOrder (findArticles num seeds [])).map Prod.fst =
      List.range' 1 (findArticles num seeds []).length := by
  refine ⟨findArticles_nodup num seeds [] List.nodup_nil, ?_, ?_⟩
  · exact List.map_snd_zip _ _ (by rw [List.length_range'])
  · exact List.map_fst_zip _ _ (by rw [List.length_range'])

/-- C5: starting from an empty accumulated sequence the collected URL
sequence never exceeds the configured target count — the inner while-loop
preserves the bound from any state under the bound, so every intermediate
state satisfies it — and once the count equals the target, collection stops
entirely: any further seeds are never consulted. -/
theorem claim5_bound_stop (num : Nat)
    (s₁ s₂ : List (Option (List String))) :
    (∀ hrefs urls : List String, urls.length ≤ num →
        (innerLoop num hrefs urls).length ≤ num) ∧
    (findArticles num s₁ []).length ≤ num ∧
    ((findArticles num s₁ []).length = num →
      findArticles num (s₁ ++ s₂) [] = findArticles num s₁ []) :=
  ⟨fun hrefs urls h => innerLoop_length_le num hrefs urls h,
   findArticles_length_le num s₁ [] (Nat.zero_le num),
   fun h => findArticles_append num s₁ s₂ [] h⟩

/-- Witness for C5 at a concrete run that reaches its target of one URL on
the first seed. -/
theorem claim5_witness :
    (innerLoop 1 ["/articles/a"] []).length ≤ 1 ∧
    (findArticles 1 [some ["/articles/a"]] []).length ≤ 1 ∧
    findArticles 1 ([some ["/articles/a"]] ++ [some ["/articles/b"]]) [] =
      findArticles 1 [some ["/articles/a"]] [] :=
  ⟨(claim5_bound_stop 1 [some ["/articles/a"]] [some ["/articles/b"]]).1
      ["/articles/a"] [] (by decide),
   (claim5_bound_stop 1 [some ["/articles/a"]] [some ["/articles/b"]]).2.1,
   (claim5_bound_stop 1 [some ["/articles/a"]] [some ["/articles/b"]]).2.2
      (by simp [findArticles, innerLoop, extractUrl, rewriteUrl, urlPattern])⟩

/-- C6: a page with exactly five paragraph elements (after footer/lead
removal) yields the empty text, and a page with exactly seven non-empty
paragraphs (containing no non-breaking spaces, which the assembly would
normalize) yields exactly the first two paragraphs joined by a newline. -/
theorem claim6_trailing_exclusion (ps : List String) :
    (ps.length = 5 → fillText ps = "") ∧
    (ps.length = 7 → (∀ p ∈ ps, p ≠ "") →
      (∀ p ∈ ps, ∀ c ∈ p.data, c ≠ Char.ofNat 0xA0) →
      fillText ps = pyJoin "\n" (ps.take 2)) := by
  constructor
  · intro h5
    simp [fillText, h5, pyJoin, replaceNbsp]
  · intro h7 hne hnb
    have htake : ps.take (ps.length - 5) = ps.take 2 := by rw [h7]
    have hfilter : (ps.take 2).filter (fun t => t ≠ "") = ps.take 2 :=
      List.filter_eq_self.mpr (fun a ha => by
        have hmem : a ∈ ps := List.mem_of_mem_take ha
        simp [hne a hmem])
    simp only [fillText, htake, hfilter]
    exact replaceNbsp_eq_self
      (pyJoin_nbsp_free (ps.take 2)
        (fun p hp => hnb p (List.mem_of_mem_take hp)))

/-- Witness for C6 at a five-paragraph page and a seven-paragraph page. -/
theorem claim6_witness :
    fillText ["a", "b", "c", "d", "e"] = "" ∧
    fillText ["p1", "p2", "p3", "p4", "p5", "p6", "p7"] =
      pyJoin "\n" (["p1", "p2", "p3", "p4", "p5", "p6", "p7"].take 2) :=
  ⟨(claim6_trailing_exclusion ["a", "b", "c", "d", "e"]).1 (by decide),
   (claim6_trailing_exclusion ["p1", "p2", "p3", "p4", "p5", "p6", "p7"]).2
      (by decide) (by decide) (by decide)⟩

/-- C7: the listing extractor equals the pure specification function: scan
the card anchors in document order, rewrite each href by the fixed
base-path substitution, return the first resulting URL not already
collected, and signal none (the empty string) exactly when every candidate
is already collected.  Both sides are functions of the parsed page's hrefs
and the already-collected list alone, so no state is retained across
calls. -/
theorem claim7_next_link (hrefs collected : List String) :
    extractUrl hrefs collected = (nextLinkSpec hrefs collected).getD "" ∧
    (nextLinkSpec hrefs collected = none ↔
      ∀ h ∈ hrefs, rewriteUrl h ∈ collected) := by
  constructor
  · induction hrefs with
    | nil => rfl
    | cons href rest ih =>
      by_cases hc : collected.contains (rewriteUrl href) = true
      · simp only [extractUrl, nextLinkSpec, List.map_cons, List.find?, hc,
          Bool.not_true] at ih ⊢
        exact ih
      · rw [Bool.not_eq_true] at hc
        have hm : rewriteUrl href ∉ collected := by simpa using hc
        simp [extractUrl, nextLinkSpec, List.find?, hm]
  · simp [nextLinkSpec, List.find?_eq_none]

/-- Witness for C7 at a concrete listing page and collected list. -/
theorem claim7_witness :
    extractUrl ["/articles/a", "/articles/b"]
        ["https://vse42.ru/articles/a"] =
      (nextLinkSpec ["/articles/a", "/articles/b"]
        ["https://vse42.ru/articles/a"]).getD "" ∧
    (nextLinkSpec ["/articles/a", "/articles/b"]
        ["https://vse42.ru/articles/a"] = none ↔
      ∀ h ∈ ["/articles/a", "/articles/b"],
        rewriteUrl h ∈ ["https://vse42.ru/articles/a"]) :=
  claim7_next_link ["/articles/a", "/articles/b"]
    ["https://vse42.ru/articles/a"]

/-- C8: a non-integer article count raises the article-count-type error and
an integer above 150 raises the range error, but an integer at or below
zero — an integer outside `[1,150]` — also raises the article-count-type
error, so the two signals are confused, contrary to the claim (and to the
exception classes' own docstrings). -/
theorem claim8_article_count_errors :
    validateTotalArticles (PyVal.str "ten") =
      some ConfigError.incorrectNumberOfArticles ∧
    validateTotalArticles (PyVal.noneV) =
      some ConfigError.incorrectNumberOfArticles ∧
    validateTotalArticles (PyVal.int 151) =
      some ConfigError.numberOfArticlesOutOfRange ∧
    validateTotalArticles (PyVal.int 0) =
      some ConfigError.incorrectNumberOfArticles ∧
    validateTotalArticles (PyVal.int (-3)) =
      some ConfigError.incorrectNumberOfArticles ∧
    validateTotalArticles (PyVal.int 10) = none ∧
    ConfigError.incorrectNumberOfArticles ≠
      ConfigError.numberOfArticlesOutOfRange := by
  decide

/-- C9: any page with at most five paragraph elements (after footer/lead
removal) yields the empty text: the slice dropping the last five paragraphs
is empty. -/
theorem claim9_short_empty (ps : List String) (h : ps.length ≤ 5) :
    fillText ps = "" := by
  have htake : ps.take (ps.length - 5) = [] := by
    rw [Nat.sub_eq_zero_of_le h, List.take_zero]
  simp [fillText, htake, pyJoin, replaceNbsp]

/-- Witness for C9 at a three-paragraph page. -/
theorem claim9_witness : fillText ["one", "two", "three"] = "" :=
  claim9_short_empty ["one", "two", "three"] (by decide)

/-- C10: the href rewrite unconditionally replaces the first nine
characters with the base path `https://vse42.ru/articles`, whether or not
the href begins with `/articles`, and an href shorter than nine characters
yields exactly the bare base path. -/
theorem claim10_rewrite (href : String) :
    rewriteUrl href =
      "https://vse42.ru/articles" ++ String.mk (href.data.drop 9) ∧
    (href.length < 9 → rewriteUrl href = "https://vse42.ru/articles") := by
  constructor
  · rfl
  · intro h
    have hd : href.data.drop 9 = [] :=
      List.drop_eq_nil_of_le (Nat.le_of_lt h)
    rw [rewriteUrl, hd]
    refine String.ext ?_
    simp [String.data_append, urlPattern]

/-- Witness for C10 at an href that does not start with `/articles` and is
shorter than nine characters. -/
theorem claim10_witness : rewriteUrl "/news" = "https://vse42.ru/articles" :=
  (claim10_rewrite "/news").2 (by decide)

end Scrapper
